import Mathlib

/-!
Verification development for the Project-Management-Dashboard pipeline.

The Python pipeline (main.py, api.py, pm_dashboard/) is shallowly embedded:
spreadsheet cell values become an inductive `PyVal` (string, number, or NaN,
matching what pandas hands back), rows become association lists, the three
agent stages become pure Lean functions, the optional LLM calls become
oracle parameters (a flag for whether a credential is configured plus the
text the completion service would return), and the HTTP/cache layer becomes
explicit state passing over an association-list cache.
-/

set_option maxRecDepth 200000

namespace PMDash

/-- A Python value as it appears in a pandas cell: a string, a number, or
NaN (pandas' marker for a missing cell). -/
inductive PyVal
  | str (s : String)
  | num (n : Int)
  | nan
  deriving DecidableEq, Repr

/-- Models Python `str(v)` on a `PyVal`. On a string it is the identity,
which is the only case the pipeline's own data ever exercises. -/
def PyVal.pyStr : PyVal → String
  | .str s => s
  | .num n => toString n
  | .nan => "nan"

/-- `v` is a Python string. -/
def PyVal.isStr : PyVal → Bool
  | .str _ => true
  | _ => false

/-- Python `chr.lower()` on one character (ASCII case mapping). -/
def asciiLowerChar (c : Char) : Char :=
  if 65 ≤ c.toNat ∧ c.toNat ≤ 90 then Char.ofNat (c.toNat + 32) else c

/-- Python `s.lower()`. -/
def pyLower (s : String) : String := String.mk (s.data.map asciiLowerChar)

/-- Whitespace stripping on a character list: drop leading and trailing
whitespace. -/
def stripList (l : List Char) : List Char :=
  ((l.dropWhile Char.isWhitespace).reverse.dropWhile Char.isWhitespace).reverse

/-- Python `s.strip()`. -/
def pyStrip (s : String) : String := String.mk (stripList s.data)

/-- One raw spreadsheet row: a mapping from column name to cell value,
as `pandas.DataFrame.iterrows` yields it. -/
abbrev Row : Type := List (String × PyVal)

/-- Python `'k' in row` on a row Series: column-name membership. -/
def rowHas (row : Row) (k : String) : Bool :=
  (row.lookup k).isSome

/-- Python `row['k'] if 'k' in row else ''` (the Row Normalizer's access
pattern): the raw cell value when the column exists, else the empty string. -/
def rowGetOrEmpty (row : Row) (k : String) : PyVal :=
  match row.lookup k with
  | some v => v
  | none => .str ""

/-- The task dictionary built by `research_agent_task` for one row. -/
structure TaskRecord where
  task : PyVal
  status : PyVal
  owner : PyVal
  dueDate : PyVal
  goalType : PyVal
  deriving DecidableEq, Repr

/-- The context dictionary returned by `research_agent_task`. -/
structure ProjectContext where
  summary : String
  milestones : List PyVal
  updates : List String
  tasks : List TaskRecord
  deriving DecidableEq, Repr

/-- `pandas.Series.unique` order: keep the first occurrence of each value
(`seen` accumulates the values already emitted). -/
def uniqueKeepFirstAux (seen : List PyVal) : List PyVal → List PyVal
  | [] => []
  | v :: vs =>
    if v ∈ seen then uniqueKeepFirstAux seen vs
    else v :: uniqueKeepFirstAux (v :: seen) vs

/-- `pandas.Series.unique` order: keep the first occurrence of each value. -/
def uniqueKeepFirst (l : List PyVal) : List PyVal :=
  uniqueKeepFirstAux [] l

/-- `data['Month'].dropna().unique().tolist() if 'Month' in data else []`:
the Month column's values with NaN dropped and duplicates removed, first
occurrence order, when any row carries a Month column. -/
def monthMilestones (data : List Row) : List PyVal :=
  if data.any (fun r => rowHas r "Month") then
    uniqueKeepFirst ((data.filterMap (fun r => List.lookup "Month" r)).filter
      (fun v => v ≠ .nan))
  else []

/-- `research_agent_task` (main.py): the Row Normalizer / Summarizer stage.
Each row yields one task dictionary, each tracked column read if present and
defaulted to the empty string otherwise. -/
def research_agent_task (data : List Row) : ProjectContext :=
  { summary := "Project has " ++ toString data.length ++ " goals/tasks."
    milestones := monthMilestones data
    updates := []
    tasks := data.map (fun row =>
      { task := rowGetOrEmpty row "Goal Description"
        status := rowGetOrEmpty row "Status"
        owner := rowGetOrEmpty row "Team Member"
        dueDate := rowGetOrEmpty row "Month"
        goalType := rowGetOrEmpty row "Goal Type" }) }

/-- An element of the `blockers` list: either a blocker dictionary with
task/reason/owner/due keys, or the enrichment pseudo-dictionary whose only
key is `llm_analysis`. -/
inductive Blocker
  | record (task reason owner : PyVal) (due : String)
  | llm (analysis : String)
  deriving DecidableEq, Repr

/-- The dictionary returned by `blocker_detection_agent_task`. -/
structure BlockerReport where
  blockers : List Blocker
  deriving DecidableEq, Repr

/-- `blocker_statuses` (main.py line 65). -/
def blocker_statuses : List String :=
  ["blocked", "delayed", "overdue", "not started", "pending"]

/-- The loop body of `blocker_detection_agent_task`: for one task, the
blocker dictionary it appends, if any.  `status` is
`str(task.get('Status','')).strip().lower()`; the emitted record copies
`Task`/`Status`/`Owner` raw and applies `str(...)` to `DueDate`. -/
def blockerOfTask (t : TaskRecord) : Option Blocker :=
  let status := pyLower (pyStrip t.status.pyStr)
  if status ∈ blocker_statuses then
    some (.record t.task t.status t.owner t.dueDate.pyStr)
  else none

/-- The deterministic accumulation loop of `blocker_detection_agent_task`. -/
def detectBlockers : List TaskRecord → List Blocker
  | [] => []
  | t :: ts =>
    match blockerOfTask t with
    | some b => b :: detectBlockers ts
    | none => detectBlockers ts

/-- `blocker_detection_agent_task` (main.py).  `hasApiKey` models
`OPENAI_API_KEY` being set; `llmAnalysis` is the completion text the LLM
returns when the enrichment call is made (the call is made exactly when the
key is configured and the deterministic blocker list is non-empty, and its
trimmed text is appended as a pseudo-record). -/
def blocker_detection_agent_task (hasApiKey : Bool) (llmAnalysis : String)
    (context : ProjectContext) : BlockerReport :=
  let blockers := detectBlockers context.tasks
  if hasApiKey && !blockers.isEmpty then
    ⟨blockers ++ [.llm (pyStrip llmAnalysis)]⟩
  else
    ⟨blockers⟩

/-- The dictionary returned by `action_planner_agent_task`. -/
structure ActionReport where
  actions : List String
  deriving DecidableEq, Repr

/-- A single quote character, used in the action format string. -/
def squote : String := String.mk [Char.ofNat 39]

/-- The f-string of `action_planner_agent_task`:
`Follow up with {owner} on '{task}' (Reason: {reason}, Due: {due})`,
with Python's `str()` applied to each interpolated value (`due` is already
a string). -/
def followUpString (owner task reason : PyVal) (due : String) : String :=
  "Follow up with " ++ owner.pyStr ++ " on " ++ squote ++ task.pyStr ++ squote
    ++ " (Reason: " ++ reason.pyStr ++ ", Due: " ++ due ++ ")"

/-- The loop of `action_planner_agent_task`: one action per element of
`blockers` that is a dictionary containing a `'task'` key (every blocker
record does; the `llm_analysis` pseudo-record does not). -/
def followUps : List Blocker → List String
  | [] => []
  | .record task reason owner due :: bs => followUpString owner task reason due :: followUps bs
  | .llm _ :: bs => followUps bs

/-- The fallback action string of `action_planner_agent_task`. -/
def fallbackAction : String := "No immediate actions required. Monitor project progress."

/-- `action_planner_agent_task` (main.py).  `hasApiKey` models
`OPENAI_API_KEY` being set; `llmPlan` is the completion text whose trimmed
form is appended whenever the key is configured (regardless of blockers). -/
def action_planner_agent_task (hasApiKey : Bool) (llmPlan : String)
    (blockers : BlockerReport) : ActionReport :=
  let actions := followUps blockers.blockers
  let actions := if actions.isEmpty then [fallbackAction] else actions
  if hasApiKey then ⟨actions ++ [pyStrip llmPlan]⟩ else ⟨actions⟩

/-- The placeholder DataFrame `load_project_data` substitutes on any load
failure: one synthetic row. -/
def placeholderData : List Row :=
  [[("Goal Description", .str "Sample Task"), ("Status", .str "In Progress"),
    ("Team Member", .str "Sample User"), ("Month", .str "2024-01"),
    ("Goal Type", .str "Sample Goal")]]

/-- `load_project_data` (main.py).  The raw source is `none` when
`pd.read_excel` cannot load the file (missing file or unreadable bytes —
both raise, and the `except` clause catches everything); a loaded-but-empty
DataFrame also raises inside the `try` and is caught the same way.  Every
failure path returns the placeholder dataset. -/
def load_project_data (src : Option (List Row)) : List Row :=
  match src with
  | none => placeholderData
  | some rows => if rows.isEmpty then placeholderData else rows

/-- `run_agents` (main.py): load, then Summarizer → Blocker Stage → Action
Stage, strictly sequential. -/
def run_agents (hasApiKey : Bool) (llmAnalysis llmPlan : String)
    (src : Option (List Row)) :
    ProjectContext × BlockerReport × ActionReport :=
  let data := load_project_data src
  let context := research_agent_task data
  let blockers := blocker_detection_agent_task hasApiKey llmAnalysis context
  let actions := action_planner_agent_task hasApiKey llmPlan blockers
  (context, blockers, actions)

/-! ### Helper lemmas about the deterministic stages -/

/-- The blocker-detection loop is the filterMap of its body. -/
theorem detectBlockers_eq_filterMap (ts : List TaskRecord) :
    detectBlockers ts = ts.filterMap blockerOfTask := by
  induction ts with
  | nil => rfl
  | cons t ts ih =>
    simp only [detectBlockers, List.filterMap_cons, ih]
    cases blockerOfTask t <;> rfl

/-- The deterministic blocker list never exceeds the task list in length. -/
theorem detectBlockers_length_le (ts : List TaskRecord) :
    (detectBlockers ts).length ≤ ts.length := by
  induction ts with
  | nil => exact Nat.le_refl 0
  | cons t ts ih =>
    simp only [detectBlockers]
    cases blockerOfTask t
    · exact Nat.le_succ_of_le ih
    · exact Nat.succ_le_succ ih

/-- The follow-up loop is the filterMap of its body. -/
theorem followUps_eq_filterMap (bs : List Blocker) :
    followUps bs = bs.filterMap (fun b =>
      match b with
      | .record task reason owner due => some (followUpString owner task reason due)
      | .llm _ => none) := by
  induction bs with
  | nil => rfl
  | cons b bs ih => cases b <;> simp [followUps, List.filterMap_cons, ih]

/-- The follow-up loop ignores a trailing `llm_analysis` pseudo-record. -/
theorem followUps_append_llm (bs : List Blocker) (a : String) :
    followUps (bs ++ [Blocker.llm a]) = followUps bs := by
  induction bs with
  | nil => rfl
  | cons b bs ih => cases b <;> simp [followUps, ih]

/-- A four-task context whose statuses are `"Blocked"`, `"Done"`,
`"pending "`, `" OVERDUE"` (the spec's Blocker Stage fixture). -/
def exampleCtx : ProjectContext :=
  { summary := "Project has 4 goals/tasks."
    milestones := []
    updates := []
    tasks :=
      [⟨.str "T1", .str "Blocked", .str "O1", .str "2024-01", .str "G"⟩,
       ⟨.str "T2", .str "Done", .str "O2", .str "2024-02", .str "G"⟩,
       ⟨.str "T3", .str "pending ", .str "O3", .str "2024-03", .str "G"⟩,
       ⟨.str "T4", .str " OVERDUE", .str "O4", .str "2024-04", .str "G"⟩] }

/-! ### Claim theorems -/

/-- Claim C1: the deterministic step of the Blocker Stage emits one
BlockerRecord for exactly those tasks whose status, trimmed and
lower-cased, lies in {blocked, delayed, overdue, not started, pending};
each record copies the task and owner fields, applies `str` to the due
field (the identity on strings), and sets reason to the original untrimmed
status; records appear in task order.  On the fixture with statuses
`["Blocked","Done","pending "," OVERDUE"]` exactly 3 records are produced,
excluding `"Done"`. -/
theorem blocker_stage_deterministic :
    (∀ (ctx : ProjectContext) (a : String),
      (blocker_detection_agent_task false a ctx).blockers =
        ctx.tasks.filterMap (fun t =>
          if pyLower (pyStrip t.status.pyStr) ∈
              ["blocked", "delayed", "overdue", "not started", "pending"] then
            some (Blocker.record t.task t.status t.owner t.dueDate.pyStr)
          else none))
    ∧ (∀ s : String, (PyVal.str s).pyStr = s)
    ∧ (blocker_detection_agent_task false "" exampleCtx).blockers =
        [Blocker.record (.str "T1") (.str "Blocked") (.str "O1") "2024-01",
         Blocker.record (.str "T3") (.str "pending ") (.str "O3") "2024-03",
         Blocker.record (.str "T4") (.str " OVERDUE") (.str "O4") "2024-04"] := by
  refine ⟨fun ctx a => ?_, fun s => rfl, by decide⟩
  simp only [blocker_detection_agent_task, Bool.false_and, Bool.false_eq_true,
    if_false, detectBlockers_eq_filterMap]
  rfl

/-- Claim C2: on a source that cannot be loaded (`none`) or loads to an
empty row sequence, the loader substitutes the single-row placeholder
dataset instead of raising, and `run_agents` on such a source behaves
exactly as on the placeholder — the orchestrator is a total function of
the input data and never fails on bad or missing input. -/
theorem run_agents_never_raises :
    (∀ src, (src = none ∨ src = some ([] : List Row)) →
      load_project_data src = placeholderData)
    ∧ placeholderData.length = 1
    ∧ (∀ (k : Bool) (a p : String) src,
        (src = none ∨ src = some ([] : List Row)) →
        run_agents k a p src = run_agents k a p (some placeholderData)) := by
  refine ⟨fun src h => ?_, rfl, fun k a p src h => ?_⟩
  · rcases h with h | h <;> subst h <;> rfl
  · rcases h with h | h <;> subst h <;> rfl

/-- Witness for C2 at the concrete failing source `none`. -/
theorem run_agents_never_raises_witness :
    load_project_data none = placeholderData
    ∧ run_agents false "" "" none = run_agents false "" "" (some placeholderData) :=
  ⟨run_agents_never_raises.1 none (Or.inl rfl),
   run_agents_never_raises.2.2 false "" "" none (Or.inl rfl)⟩

/-- A single-task context whose one task is blocked: with an API key
configured, the enrichment pseudo-record makes `blockers` longer than
`tasks`. -/
def singleBlockedCtx : ProjectContext :=
  { summary := ""
    milestones := []
    updates := []
    tasks := [⟨.str "T", .str "Blocked", .str "O", .str "2024-01", .str "G"⟩] }

/-- Counterexample to claim C4 as stated: with the LLM enrichment
configured and succeeding, a context with 1 task (blocked) yields a
BlockerReport with 2 entries — the blocker count exceeds the task count. -/
theorem blockers_le_tasks_counterexample :
    (blocker_detection_agent_task true "analysis" singleBlockedCtx).blockers.length = 2
    ∧ singleBlockedCtx.tasks.length = 1 := by decide

/-- Claim C4 amended: the BlockerReport holds at most one record more than
the task count (the possible enrichment pseudo-record); without a
configured completion client the deterministic bound
`blockers ≤ tasks` does hold. -/
theorem blockers_le_tasks_amended :
    (∀ (k : Bool) (a : String) (ctx : ProjectContext),
      (blocker_detection_agent_task k a ctx).blockers.length ≤ ctx.tasks.length + 1)
    ∧ (∀ (a : String) (ctx : ProjectContext),
      (blocker_detection_agent_task false a ctx).blockers.length ≤ ctx.tasks.length) := by
  constructor
  · intro k a ctx
    simp only [blocker_detection_agent_task]
    by_cases h : (k && !(detectBlockers ctx.tasks).isEmpty) = true
    · rw [if_pos h]
      simp only [List.length_append, List.length_cons, List.length_nil]
      exact Nat.add_le_add_right (detectBlockers_length_le ctx.tasks) 1
    · rw [if_neg h]
      exact Nat.le_succ_of_le (detectBlockers_length_le ctx.tasks)
  · intro a ctx
    simp only [blocker_detection_agent_task, Bool.false_and, Bool.false_eq_true, if_false]
    exact detectBlockers_length_le ctx.tasks

/-- Counterexample to claim C5 as stated: a blocker record whose `task`
string is empty still contributes a follow-up action (the code tests key
presence, not non-emptiness), so the actions list is not the fallback the
claim would require. -/
theorem action_nonempty_task_counterexample :
    (action_planner_agent_task false ""
        ⟨[Blocker.record (.str "") (.str "Blocked") (.str "O") "D"]⟩).actions
      = [followUpString (.str "O") (.str "") (.str "Blocked") "D"]
    ∧ followUpString (.str "O") (.str "") (.str "Blocked") "D" ≠ fallbackAction := by
  decide

/-- Claim C5 amended: the deterministic step emits one action string of the
fixed form `Follow up with {owner} on '{task}' (Reason: {reason}, Due:
{due})` for every blocker entry that is a dictionary containing a `task`
key — i.e. every blocker record, its `task` string empty or not — and no
action for the `llm_analysis` pseudo-record; the whole stage output is
that list (or the fallback when it is empty) plus the optional appended
LLM plan. -/
theorem action_stage_format :
    (∀ (report : BlockerReport),
      followUps report.blockers = report.blockers.filterMap (fun b =>
        match b with
        | .record task reason owner due =>
            some ("Follow up with " ++ owner.pyStr ++ " on " ++ squote
              ++ task.pyStr ++ squote ++ " (Reason: " ++ reason.pyStr
              ++ ", Due: " ++ due ++ ")")
        | .llm _ => none))
    ∧ (∀ (k : Bool) (p : String) (report : BlockerReport),
      (action_planner_agent_task k p report).actions =
        (if (followUps report.blockers).isEmpty then [fallbackAction]
         else followUps report.blockers) ++ (if k then [pyStrip p] else [])) := by
  constructor
  · intro report
    exact followUps_eq_filterMap report.blockers
  · intro k p report
    simp only [action_planner_agent_task]
    cases k <;> simp

/-- Counterexample to claim C6 as stated: with a completion client
configured, the Action Stage on an empty blocker list appends the LLM plan
after the fallback, so `actions` is a two-element list, not the one-element
fallback list. -/
theorem empty_blockers_fallback_counterexample :
    (action_planner_agent_task true "PLAN" ⟨[]⟩).actions
      = ["No immediate actions required. Monitor project progress.", "PLAN"]
    ∧ (action_planner_agent_task true "PLAN" ⟨[]⟩).actions
      ≠ ["No immediate actions required. Monitor project progress."] := by decide

/-- Claim C6 amended: on an empty blocker list the deterministic Action
Stage yields exactly the one-element fallback list; when a completion
client is configured the trimmed LLM plan is appended after it, giving a
two-element list whose head is still the fallback. -/
theorem empty_blockers_fallback_amended :
    (∀ p : String, (action_planner_agent_task false p ⟨[]⟩).actions =
      ["No immediate actions required. Monitor project progress."])
    ∧ (∀ p : String, (action_planner_agent_task true p ⟨[]⟩).actions =
      ["No immediate actions required. Monitor project progress.", pyStrip p]) :=
  ⟨fun _ => rfl, fun _ => rfl⟩

/-- Claim C10: the enrichment pseudo-record appended by the Blocker Stage
carries only an `llm_analysis` field (the `Blocker.llm` constructor has no
task field), and the Action Stage's follow-up loop produces actions only
from blocker dictionaries containing a `task` key; hence the follow-up
actions computed from any BlockerReport equal those computed from the
deterministic blocker list alone — the pseudo-record never yields a
`Follow up with ...` string. -/
theorem llm_record_no_action :
    (∀ (a : String) (bs : List Blocker),
      followUps (bs ++ [Blocker.llm a]) = followUps bs)
    ∧ (∀ (k : Bool) (a : String) (ctx : ProjectContext),
      followUps ((blocker_detection_agent_task k a ctx).blockers) =
        followUps (detectBlockers ctx.tasks)) := by
  refine ⟨fun a bs => followUps_append_llm bs a, fun k a ctx => ?_⟩
  simp only [blocker_detection_agent_task]
  by_cases h : (k && !(detectBlockers ctx.tasks).isEmpty) = true
  · rw [if_pos h]
    exact followUps_append_llm _ _
  · rw [if_neg h]

/-- A successful `List.lookup` finds a pair of the list. -/
theorem lookup_mem_row {r : Row} {k : String} {v : PyVal}
    (h : List.lookup k r = some v) : (k, v) ∈ r := by
  induction r with
  | nil => simp [List.lookup] at h
  | cons kv r ih =>
    rw [List.lookup] at h
    cases hk : (k == kv.fst) with
    | true =>
      rw [hk] at h
      simp only [Option.some.injEq] at h
      have hkk : k = kv.fst := by simpa using hk
      subst h
      exact hkk ▸ List.mem_cons_self _ _
    | false =>
      rw [hk] at h
      exact List.mem_cons_of_mem kv (ih h)

/-- If every cell of a row is a string, so is every defaulted read. -/
theorem rowGetOrEmpty_isStr {r : Row} (hr : ∀ kv ∈ r, (Prod.snd kv).isStr = true)
    (k : String) : (rowGetOrEmpty r k).isStr = true := by
  unfold rowGetOrEmpty
  cases h : List.lookup k r with
  | none => rfl
  | some v => exact hr (k, v) (lookup_mem_row h)

/-- A row whose `Goal Description` cell is NaN (pandas' missing-cell
marker), as read from a sheet with a blank cell in a present column. -/
def nanRow : Row :=
  [("Goal Description", PyVal.nan), ("Status", .str "Blocked"),
   ("Team Member", .str "O"), ("Month", .str "2024-01"),
   ("Goal Type", .str "G")]

/-- Counterexample to claim C9 as stated: the Row Normalizer copies cell
values verbatim, so a NaN cell in a present column becomes a NaN field of
the TaskRecord — not a string. -/
theorem normalizer_fields_counterexample :
    (research_agent_task [nanRow]).tasks.map (fun t => t.task) = [PyVal.nan]
    ∧ PyVal.nan.isStr = false := by decide

/-- Claim C9 amended: for every row sequence the Row Normalizer produces
exactly one TaskRecord per input row, a missing tracked column defaults to
the empty string (never a failure), and every field of every produced
TaskRecord is a string whenever every cell of the input rows is a string —
the normalizer copies cell values verbatim, so non-string cells (NaN from
blank cells, numeric or date cells) yield non-string fields. -/
theorem normalizer_amended :
    (∀ data : List Row, (research_agent_task data).tasks.length = data.length)
    ∧ (∀ (r : Row) (k : String), rowHas r k = false → rowGetOrEmpty r k = .str "")
    ∧ (∀ data : List Row,
        (∀ r ∈ data, ∀ kv ∈ r, (Prod.snd kv).isStr = true) →
        ∀ t ∈ (research_agent_task data).tasks,
          t.task.isStr = true ∧ t.status.isStr = true ∧ t.owner.isStr = true
            ∧ t.dueDate.isStr = true ∧ t.goalType.isStr = true) := by
  refine ⟨fun data => ?_, fun r k h => ?_, fun data hcells t ht => ?_⟩
  · simp [research_agent_task]
  · unfold rowGetOrEmpty
    unfold rowHas at h
    cases hl : List.lookup k r with
    | none => rfl
    | some v => rw [hl] at h; simp at h
  · simp only [research_agent_task, List.mem_map] at ht
    obtain ⟨r, hr, rfl⟩ := ht
    have hcr := hcells r hr
    exact ⟨rowGetOrEmpty_isStr hcr _, rowGetOrEmpty_isStr hcr _,
      rowGetOrEmpty_isStr hcr _, rowGetOrEmpty_isStr hcr _,
      rowGetOrEmpty_isStr hcr _⟩

/-- Witness for the amended C9 at a concrete one-row, all-string dataset
with a missing tracked column. -/
theorem normalizer_amended_witness :
    (research_agent_task placeholderData).tasks.length = placeholderData.length
    ∧ rowGetOrEmpty [("Status", PyVal.str "Done")] "Team Member" = .str ""
    ∧ ∀ t ∈ (research_agent_task placeholderData).tasks,
        t.task.isStr = true ∧ t.status.isStr = true ∧ t.owner.isStr = true
          ∧ t.dueDate.isStr = true ∧ t.goalType.isStr = true :=
  ⟨normalizer_amended.1 placeholderData,
   normalizer_amended.2.1 [("Status", PyVal.str "Done")] "Team Member" (by decide),
   normalizer_amended.2.2 placeholderData (by decide)⟩

/-! ### SHA-256 (models `hashlib.sha256(...).hexdigest()` used by
`generate_cache_key` in api.py).  Words are `Nat` reduced mod `2^32`;
the message is a list of byte values. -/

/-- Reduce to a 32-bit word. -/
def w32 (n : Nat) : Nat := n % 4294967296

/-- Right rotation of a 32-bit word by `k`. -/
def rotr32 (k n : Nat) : Nat := w32 (n / 2 ^ k + n % 2 ^ k * 2 ^ (32 - k))

/-- 32-bit complement (inputs are < 2^32). -/
def compl32 (n : Nat) : Nat := 4294967295 - n

/-- SHA-256 `Ch e f g`. -/
def shaCh (e f g : Nat) : Nat := Nat.xor (Nat.land e f) (Nat.land (compl32 e) g)

/-- SHA-256 `Maj a b c`. -/
def shaMaj (a b c : Nat) : Nat :=
  Nat.xor (Nat.xor (Nat.land a b) (Nat.land a c)) (Nat.land b c)

/-- SHA-256 `Σ0`. -/
def bsig0 (x : Nat) : Nat := Nat.xor (Nat.xor (rotr32 2 x) (rotr32 13 x)) (rotr32 22 x)

/-- SHA-256 `Σ1`. -/
def bsig1 (x : Nat) : Nat := Nat.xor (Nat.xor (rotr32 6 x) (rotr32 11 x)) (rotr32 25 x)

/-- SHA-256 `σ0`. -/
def ssig0 (x : Nat) : Nat := Nat.xor (Nat.xor (rotr32 7 x) (rotr32 18 x)) (x / 2 ^ 3)

/-- SHA-256 `σ1`. -/
def ssig1 (x : Nat) : Nat := Nat.xor (Nat.xor (rotr32 17 x) (rotr32 19 x)) (x / 2 ^ 10)

/-- The 64 SHA-256 round constants (FIPS 180-4), in decimal. -/
def shaK : List Nat :=
  [1116352408, 1899447441, 3049323471, 3921009573, 961987163,
   1508970993, 2453635748, 2870763221, 3624381080, 310598401,
   607225278, 1426881987, 1925078388, 2162078206, 2614888103,
   3248222580, 3835390401, 4022224774, 264347078, 604807628,
   770255983, 1249150122, 1555081692, 1996064986, 2554220882,
   2821834349, 2952996808, 3210313671, 3336571891, 3584528711,
   113926993, 338241895, 666307205, 773529912, 1294757372,
   1396182291, 1695183700, 1986661051, 2177026350, 2456956037,
   2730485921, 2820302411, 3259730800, 3345764771, 3516065817,
   3600352804, 4094571909, 275423344, 430227734, 506948616,
   659060556, 883997877, 958139571, 1322822218, 1537002063,
   1747873779, 1955562222, 2024104815, 2227730452, 2361852424,
   2428436474, 2756734187, 3204031479, 3329325298]

/-- The eight 32-bit words of the SHA-256 working state. -/
structure Hash8 where
  a : Nat
  b : Nat
  c : Nat
  d : Nat
  e : Nat
  f : Nat
  g : Nat
  h : Nat
  deriving DecidableEq, Repr

/-- The SHA-256 initial hash value (FIPS 180-4), in decimal. -/
def shaH0 : Hash8 :=
  ⟨1779033703, 3144134277, 1013904242, 2773480762,
   1359893119, 2600822924, 528734635, 1541459225⟩

/-- One SHA-256 compression round with round constant `kt` and schedule
word `wt`. -/
def shaRound (st : Hash8) (kt wt : Nat) : Hash8 :=
  let t1 := w32 (st.h + bsig1 st.e + shaCh st.e st.f st.g + kt + wt)
  let t2 := w32 (bsig0 st.a + shaMaj st.a st.b st.c)
  ⟨w32 (t1 + t2), st.a, st.b, st.c, w32 (st.d + t1), st.e, st.f, st.g⟩

/-- Run the 64 compression rounds over the paired constants and schedule. -/
def shaRounds : List (Nat × Nat) → Hash8 → Hash8
  | [], st => st
  | kw :: rest, st => shaRounds rest (shaRound st kw.fst kw.snd)

/-- One message-schedule extension step: append
`σ1(w[t-2]) + w[t-7] + σ0(w[t-15]) + w[t-16]` mod 2^32. -/
def stepSchedule (ws : List Nat) : List Nat :=
  let t := ws.length
  ws ++ [w32 (ssig1 (ws.getD (t - 2) 0) + ws.getD (t - 7) 0
    + ssig0 (ws.getD (t - 15) 0) + ws.getD (t - 16) 0)]

/-- Extend the schedule `n` times (48 times takes 16 words to 64). -/
def extendSchedule : Nat → List Nat → List Nat
  | 0, ws => ws
  | n + 1, ws => extendSchedule n (stepSchedule ws)

/-- The 16 initial schedule words of one 64-byte block, big-endian. -/
def wordsOfBlock (block : List Nat) : List Nat :=
  (List.range 16).map (fun i =>
    block.getD (4 * i) 0 * 16777216 + block.getD (4 * i + 1) 0 * 65536
      + block.getD (4 * i + 2) 0 * 256 + block.getD (4 * i + 3) 0)

/-- Process one 64-byte block: schedule, 64 rounds, add to the chaining
value mod 2^32. -/
def processBlock (hv : Hash8) (block : List Nat) : Hash8 :=
  let ws := extendSchedule 48 (wordsOfBlock block)
  let st := shaRounds (shaK.zip ws) hv
  ⟨w32 (hv.a + st.a), w32 (hv.b + st.b), w32 (hv.c + st.c), w32 (hv.d + st.d),
   w32 (hv.e + st.e), w32 (hv.f + st.f), w32 (hv.g + st.g), w32 (hv.h + st.h)⟩

/-- Big-endian 8-byte encoding of the message bit length. -/
def lenBytes (bitLen : Nat) : List Nat :=
  (List.range 8).map (fun i => bitLen / 2 ^ (8 * (7 - i)) % 256)

/-- SHA-256 padding: `0x80`, zeros to 56 mod 64, 8-byte bit length. -/
def padMessage (msg : List Nat) : List Nat :=
  msg ++ [128] ++ List.replicate ((119 - msg.length % 64) % 64) 0
    ++ lenBytes (8 * msg.length)

/-- The padded message as 64-byte blocks. -/
def messageBlocks (msg : List Nat) : List (List Nat) :=
  let padded := padMessage msg
  (List.range (padded.length / 64)).map (fun i => (padded.drop (64 * i)).take 64)

/-- The final SHA-256 state of a byte-list message. -/
def sha256state (msg : List Nat) : Hash8 :=
  (messageBlocks msg).foldl processBlock shaH0

/-- Lowercase hexadecimal digit. -/
def hexDigit (n : Nat) : Char :=
  if n < 10 then Char.ofNat (48 + n) else Char.ofNat (87 + n)

/-- A 32-bit word as 8 lowercase hex characters, most significant first. -/
def hexWord8 (n : Nat) : List Char :=
  (List.range 8).map (fun i => hexDigit (n / 16 ^ (7 - i) % 16))

/-- `hashlib.sha256(msg).hexdigest()`: the 64-character lowercase hex
digest. -/
def hexdigest (msg : List Nat) : String :=
  let s := sha256state msg
  String.mk (hexWord8 s.a ++ hexWord8 s.b ++ hexWord8 s.c ++ hexWord8 s.d
    ++ hexWord8 s.e ++ hexWord8 s.f ++ hexWord8 s.g ++ hexWord8 s.h)

/-- `generate_cache_key` (api.py): `f"dashboard:{sha256(content).hexdigest()}"`. -/
def generate_cache_key (file_content : List Nat) : String :=
  "dashboard:" ++ hexdigest file_content

/-! ### Properties of the cache key -/

/-- All eight state words are 32-bit. -/
def Hash8.bounded (x : Hash8) : Prop :=
  x.a < 4294967296 ∧ x.b < 4294967296 ∧ x.c < 4294967296 ∧ x.d < 4294967296
    ∧ x.e < 4294967296 ∧ x.f < 4294967296 ∧ x.g < 4294967296 ∧ x.h < 4294967296

/-- A word reduced mod `2^32` is below `2^32`. -/
theorem w32_lt (n : Nat) : w32 n < 4294967296 := Nat.mod_lt _ (by norm_num)

/-- A state built from eight reduced words is bounded. -/
theorem mk_w32_bounded (x1 x2 x3 x4 x5 x6 x7 x8 : Nat) :
    (Hash8.mk (w32 x1) (w32 x2) (w32 x3) (w32 x4)
      (w32 x5) (w32 x6) (w32 x7) (w32 x8)).bounded :=
  ⟨w32_lt x1, w32_lt x2, w32_lt x3, w32_lt x4,
   w32_lt x5, w32_lt x6, w32_lt x7, w32_lt x8⟩

/-- A block-processing step always yields 32-bit words. -/
theorem processBlock_bounded (hv : Hash8) (block : List Nat) :
    (processBlock hv block).bounded := by
  rw [processBlock]
  exact mk_w32_bounded _ _ _ _ _ _ _ _

/-- The final SHA-256 state consists of 32-bit words. -/
theorem sha256state_bounded (msg : List Nat) : (sha256state msg).bounded := by
  unfold sha256state
  have key : ∀ (bs : List (List Nat)) (hv : Hash8), hv.bounded →
      (bs.foldl processBlock hv).bounded := by
    intro bs
    induction bs with
    | nil => exact fun hv h => h
    | cons b bs ih =>
      intro hv _
      rw [List.foldl_cons]
      exact ih (processBlock hv b) (processBlock_bounded hv b)
  refine key _ shaH0 ?_
  unfold Hash8.bounded shaH0
  refine ⟨?_, ?_, ?_, ?_, ?_, ?_, ?_, ?_⟩ <;> norm_num

/-- The eight state words, truncated into a finite type (the truncation is
the identity on bounded states). -/
def stateVec (x : Hash8) :
    Fin 4294967296 × Fin 4294967296 × Fin 4294967296 × Fin 4294967296
      × Fin 4294967296 × Fin 4294967296 × Fin 4294967296 × Fin 4294967296 :=
  (⟨x.a % 4294967296, Nat.mod_lt _ (by norm_num)⟩,
   ⟨x.b % 4294967296, Nat.mod_lt _ (by norm_num)⟩,
   ⟨x.c % 4294967296, Nat.mod_lt _ (by norm_num)⟩,
   ⟨x.d % 4294967296, Nat.mod_lt _ (by norm_num)⟩,
   ⟨x.e % 4294967296, Nat.mod_lt _ (by norm_num)⟩,
   ⟨x.f % 4294967296, Nat.mod_lt _ (by norm_num)⟩,
   ⟨x.g % 4294967296, Nat.mod_lt _ (by norm_num)⟩,
   ⟨x.h % 4294967296, Nat.mod_lt _ (by norm_num)⟩)

/-- On bounded states, equal truncations force equal states. -/
theorem stateVec_inj {x y : Hash8} (hx : x.bounded) (hy : y.bounded)
    (h : stateVec x = stateVec y) : x = y := by
  obtain ⟨xa, xb, xc, xd, xe, xf, xg, xh⟩ := x
  obtain ⟨ya, yb, yc, yd, ye, yf, yg, yh⟩ := y
  obtain ⟨ha1, hb1, hc1, hd1, he1, hf1, hg1, hh1⟩ := hx
  obtain ⟨ha2, hb2, hc2, hd2, he2, hf2, hg2, hh2⟩ := hy
  simp only [stateVec, Prod.mk.injEq, Fin.mk.injEq] at h
  obtain ⟨h1, h2, h3, h4, h5, h6, h7, h8⟩ := h
  simp only [Hash8.mk.injEq]
  rw [Nat.mod_eq_of_lt ha1, Nat.mod_eq_of_lt ha2] at h1
  rw [Nat.mod_eq_of_lt hb1, Nat.mod_eq_of_lt hb2] at h2
  rw [Nat.mod_eq_of_lt hc1, Nat.mod_eq_of_lt hc2] at h3
  rw [Nat.mod_eq_of_lt hd1, Nat.mod_eq_of_lt hd2] at h4
  rw [Nat.mod_eq_of_lt he1, Nat.mod_eq_of_lt he2] at h5
  rw [Nat.mod_eq_of_lt hf1, Nat.mod_eq_of_lt hf2] at h6
  rw [Nat.mod_eq_of_lt hg1, Nat.mod_eq_of_lt hg2] at h7
  rw [Nat.mod_eq_of_lt hh1, Nat.mod_eq_of_lt hh2] at h8
  exact ⟨h1, h2, h3, h4, h5, h6, h7, h8⟩

/-- Counterexample to claim C8 as stated: the fingerprint cannot be
injective on all byte sequences — there are infinitely many inputs and
only finitely many 256-bit digests, so two differing byte sequences share
a fingerprint (pigeonhole; no concrete colliding pair for SHA-256 is
known, but the universal distinctness claim is provably false). -/
theorem fingerprint_injectivity_counterexample :
    ¬ (∀ b1 b2 : List Nat, b1 ≠ b2 →
        generate_cache_key b1 ≠ generate_cache_key b2) := by
  intro hinj
  obtain ⟨m, n, hmn, heq⟩ :=
    Finite.exists_ne_map_eq_of_infinite
      (fun k : Nat => stateVec (sha256state (List.replicate k 0)))
  have hstates : sha256state (List.replicate m 0) = sha256state (List.replicate n 0) :=
    stateVec_inj (sha256state_bounded _) (sha256state_bounded _) heq
  have hbytes : List.replicate m 0 ≠ List.replicate n 0 := by
    intro h
    exact hmn (by simpa using congrArg List.length h)
  exact hinj _ _ hbytes (by simp only [generate_cache_key, hexdigest, hstates])

/-- The sixteen lowercase hexadecimal characters. -/
def hexAlphabet : List Char := "0123456789abcdef".data

/-- A hex digit of a residue mod 16 lies in the hex alphabet. -/
theorem hexDigit_mem (n : Nat) : hexDigit (n % 16) ∈ hexAlphabet := by
  have hlt : n % 16 < 16 := Nat.mod_lt _ (by norm_num)
  have hall : ∀ i : Fin 16, hexDigit i.val ∈ hexAlphabet := by decide
  exact hall ⟨n % 16, hlt⟩

/-- Every character of `hexWord8` is a hex character. -/
theorem hexWord8_mem (n : Nat) : ∀ c ∈ hexWord8 n, c ∈ hexAlphabet := by
  intro c hc
  simp only [hexWord8, List.mem_map, List.mem_range] at hc
  obtain ⟨i, _, rfl⟩ := hc
  exact hexDigit_mem _

/-- Claim C8 amended: the cache key is a deterministic pure function of
the raw input bytes — `fingerprint(bytes) == fingerprint(bytes)` on every
invocation — of the fixed form `dashboard:` followed by a 64-character
lowercase-hex SHA-256 content digest; fingerprints of differing byte
sequences are distinct on tested fixtures (here the one-byte inputs 0 and
1), which is the collision-resistance reading — universal distinctness is
unattainable for any fixed-length digest. -/
theorem fingerprint_amended :
    (∀ b : List Nat, generate_cache_key b = generate_cache_key b)
    ∧ (∀ b : List Nat, generate_cache_key b = "dashboard:" ++ hexdigest b)
    ∧ (∀ b : List Nat, (hexdigest b).length = 64)
    ∧ (∀ b : List Nat, ∀ c ∈ (hexdigest b).data, c ∈ hexAlphabet)
    ∧ generate_cache_key [0] ≠ generate_cache_key [1] := by
  refine ⟨fun b => rfl, fun b => rfl, fun b => ?_, fun b c hc => ?_, by decide⟩
  · simp [hexdigest, String.length, hexWord8]
  · simp only [hexdigest, String.data] at hc
    simp only [List.mem_append] at hc
    rcases hc with ((((((h | h) | h) | h) | h) | h) | h) | h <;>
      exact hexWord8_mem _ c h

/-- Witness for the amended C8 at concrete inputs. -/
theorem fingerprint_amended_witness :
    generate_cache_key [0] = generate_cache_key [0]
    ∧ generate_cache_key [0] = "dashboard:" ++ hexdigest [0]
    ∧ (hexdigest [0]).length = 64
    ∧ Char.ofNat 54 ∈ hexAlphabet
    ∧ generate_cache_key [0] ≠ generate_cache_key [1] :=
  ⟨fingerprint_amended.1 [0], fingerprint_amended.2.1 [0],
   fingerprint_amended.2.2.1 [0],
   fingerprint_amended.2.2.2.1 [0] (Char.ofNat 54) (by decide),
   fingerprint_amended.2.2.2.2⟩

/-! ### The HTTP entry point with caching (api.py `dashboard`).
The Redis backend becomes an association list from keys to stored
responses plus a reachability flag; `set` failure becomes a flag (the
code's `RedisManager.set` catches every Redis error and returns `False`,
so a failed set only means the cache is left unchanged).  Spreadsheet
parsing of the uploaded bytes is an oracle parameter. -/

/-- The `response_data` dictionary assembled by the `/dashboard` endpoint.
`cacheKey` is `none` when the `cache_key` key is absent (fresh results)
and `some k` on a cache hit, where the endpoint adds it. -/
structure RespData where
  summary : String
  milestones : List PyVal
  updates : List String
  tasks : List TaskRecord
  blockers : List Blocker
  actions : List String
  cached : Bool
  cacheKey : Option String
  deriving DecidableEq, Repr

/-- The fresh `response_data` built from the orchestrator's output. -/
def responseOf (out : ProjectContext × BlockerReport × ActionReport) : RespData :=
  { summary := out.fst.summary
    milestones := out.fst.milestones
    updates := out.fst.updates
    tasks := out.fst.tasks
    blockers := out.snd.fst.blockers
    actions := out.snd.snd.actions
    cached := false
    cacheKey := none }

/-- The `/dashboard` endpoint (api.py).  `connected` models
`redis_manager.is_connected()`, `noCache` the bypass flag, `setFails`
whether the backend `set` command fails (swallowed by `RedisManager.set`),
`cache` the backend's key-value state (stored responses are non-empty
dictionaries, so presence is a Python-truthy hit), and `excel` the
spreadsheet parse of the uploaded bytes (`none` = unparseable).  Returns
the response and the cache state after the call. -/
def dashboard (connected noCache setFails : Bool)
    (cache : List (String × RespData))
    (excel : List Nat → Option (List Row))
    (hasApiKey : Bool) (llmAnalysis llmPlan : String)
    (fileContent : List Nat) : RespData × List (String × RespData) :=
  let cacheKey := generate_cache_key fileContent
  match (if !noCache && connected then cache.lookup cacheKey else none) with
  | some v => ({ v with cached := true, cacheKey := some cacheKey }, cache)
  | none =>
    let response_data := responseOf
      (run_agents hasApiKey llmAnalysis llmPlan (excel fileContent))
    let cache2 := if connected && !setFails then (cacheKey, response_data) :: cache
      else cache
    (response_data, cache2)

/-- Claim C3: when the backend is reachable, the bypass flag is clear and
the key is stored, the endpoint returns the stored result with the cached
flag set, without invoking the Orchestrator (the result is the same for
every orchestrator oracle); on a miss it invokes the Orchestrator and
returns an uncached fresh result; and a failing cache `set` never changes
the returned value — only the stored state. -/
theorem dashboard_cache_contract :
    (∀ (setFails : Bool) (cache : List (String × RespData)) excel k a p fc v,
      cache.lookup (generate_cache_key fc) = some v →
      dashboard true false setFails cache excel k a p fc =
        ({ v with cached := true, cacheKey := some (generate_cache_key fc) }, cache))
    ∧ (∀ (connected noCache setFails : Bool) cache excel k a p fc,
      (if !noCache && connected then cache.lookup (generate_cache_key fc)
        else none) = none →
      dashboard connected noCache setFails cache excel k a p fc =
        (responseOf (run_agents k a p (excel fc)),
         if connected && !setFails then
           (generate_cache_key fc, responseOf (run_agents k a p (excel fc))) :: cache
         else cache)
      ∧ (dashboard connected noCache setFails cache excel k a p fc).fst.cached = false)
    ∧ (∀ (connected noCache : Bool) cache excel k a p fc,
      (dashboard connected noCache true cache excel k a p fc).fst =
        (dashboard connected noCache false cache excel k a p fc).fst) := by
  refine ⟨fun s cache excel k a p fc v hv => ?_, fun c n s cache excel k a p fc h => ?_,
    fun c n cache excel k a p fc => ?_⟩
  · simp only [dashboard, Bool.not_false, Bool.true_and, hv]
    rfl
  · refine ⟨?_, ?_⟩ <;> (simp only [dashboard]; rw [h]; try rfl)
  · simp only [dashboard]
    cases hl : (if (!n && c) = true then cache.lookup (generate_cache_key fc) else none) <;>
      rfl

/-- A stored response used as a concrete cache entry. -/
def storedResp : RespData :=
  ⟨"s", [], [], [], [], ["x"], false, none⟩

/-- Witness for C3 at a concrete upload: a hit on a one-entry cache, a
miss on the empty cache, and set-failure independence, all at input
byte `[0]`. -/
theorem dashboard_cache_contract_witness :
    dashboard true false false [(generate_cache_key [0], storedResp)]
        (fun _ => none) false "" "" [0] =
      ({ storedResp with cached := true, cacheKey := some (generate_cache_key [0]) },
       [(generate_cache_key [0], storedResp)])
    ∧ (dashboard true false false [] (fun _ => none) false "" "" [0]).fst.cached = false
    ∧ (dashboard true false true [] (fun _ => none) false "" "" [0]).fst =
        (dashboard true false false [] (fun _ => none) false "" "" [0]).fst :=
  ⟨(dashboard_cache_contract.1 false [(generate_cache_key [0], storedResp)]
      (fun _ => none) false "" "" [0] storedResp (by simp [List.lookup])
      ),
   ((dashboard_cache_contract.2.1 true false false [] (fun _ => none) false "" "" [0])
      (by simp)).2,
   dashboard_cache_contract.2.2 true false [] (fun _ => none) false "" "" [0]⟩

/-! ### The structured-response parser
(`BaseAgent._parse_json_response` in pm_dashboard/agents/base_agent.py).
Python strings become character lists; `str.find`/`str.rfind`/slicing are
modelled with Python's index conventions (−1 for "not found", negative
slice indices counted from the end); `json.loads` is modelled by an
executable fuel-based parser of the JSON fragment exercised here
(objects, arrays, strings with escapes, integers, booleans, null —
fractional and exponent number forms are rejected rather than parsed). -/

/-- The opening-brace character. -/
def lbrace : Char := Char.ofNat 123

/-- The closing-brace character. -/
def rbrace : Char := Char.ofNat 125

/-- The double-quote character. -/
def dquote : Char := Char.ofNat 34

/-- The backslash character. -/
def bslash : Char := Char.ofNat 92

/-- Index of the first occurrence of `c`, if any. -/
def findIdxFrom (c : Char) : List Char → Option Nat
  | [] => none
  | x :: xs => if x = c then some 0 else (findIdxFrom c xs).map (· + 1)

/-- Python `s.find(c)`: index of the first occurrence, or `-1`. -/
def pyFind (c : Char) (l : List Char) : Int :=
  match findIdxFrom c l with
  | some i => (i : Int)
  | none => -1

/-- Python `s.rfind(c)`: index of the last occurrence, or `-1`. -/
def pyRFind (c : Char) (l : List Char) : Int :=
  match findIdxFrom c l.reverse with
  | some i => ((l.length - 1 - i : Nat) : Int)
  | none => -1

/-- Python slice-bound normalization for `s[i:j]`: negative indices count
from the end, results are clamped to `[0, len]`. -/
def pyBound (len : Nat) (i : Int) : Nat :=
  if i < 0 then len - (-i).toNat else min i.toNat len

/-- Python `s[start:stop]`. -/
def pySlice (l : List Char) (start stop : Int) : List Char :=
  (l.take (pyBound l.length stop)).drop (pyBound l.length start)

/-- A JSON value. -/
inductive Json
  | null
  | bool (b : Bool)
  | num (n : Int)
  | str (chars : List Char)
  | arr (elems : List Json)
  | obj (members : List (List Char × Json))

/-- Skip JSON whitespace. -/
def skipWs : List Char → List Char
  | [] => []
  | c :: cs => if c = ' ' ∨ c = '\t' ∨ c = '\n' ∨ c = '\r' then skipWs cs else c :: cs

/-- Value of one hexadecimal character. -/
def hexCharVal (c : Char) : Option Nat :=
  if '0' ≤ c ∧ c ≤ '9' then some (c.toNat - 48)
  else if 'a' ≤ c ∧ c ≤ 'f' then some (c.toNat - 87)
  else if 'A' ≤ c ∧ c ≤ 'F' then some (c.toNat - 55)
  else none

/-- Parse the body of a JSON string literal (after the opening quote):
returns the decoded characters and the input after the closing quote. -/
def parseStringBody : Nat → List Char → Option (List Char × List Char)
  | 0, _ => none
  | _ + 1, [] => none
  | fuel + 1, c :: cs =>
    if c = dquote then some ([], cs)
    else if c = bslash then
      match cs with
      | [] => none
      | e :: cs2 =>
        if e = dquote then (parseStringBody fuel cs2).map (fun p => (dquote :: p.fst, p.snd))
        else if e = bslash then (parseStringBody fuel cs2).map (fun p => (bslash :: p.fst, p.snd))
        else if e = '/' then (parseStringBody fuel cs2).map (fun p => ('/' :: p.fst, p.snd))
        else if e = 'n' then (parseStringBody fuel cs2).map (fun p => ('\n' :: p.fst, p.snd))
        else if e = 't' then (parseStringBody fuel cs2).map (fun p => ('\t' :: p.fst, p.snd))
        else if e = 'r' then (parseStringBody fuel cs2).map (fun p => ('\r' :: p.fst, p.snd))
        else if e = 'b' then (parseStringBody fuel cs2).map (fun p => (Char.ofNat 8 :: p.fst, p.snd))
        else if e = 'f' then (parseStringBody fuel cs2).map (fun p => (Char.ofNat 12 :: p.fst, p.snd))
        else if e = 'u' then
          match cs2 with
          | h1 :: h2 :: h3 :: h4 :: cs3 =>
            match hexCharVal h1, hexCharVal h2, hexCharVal h3, hexCharVal h4 with
            | some a, some b, some c4, some d =>
              (parseStringBody fuel cs3).map
                (fun p => (Char.ofNat (a * 4096 + b * 256 + c4 * 16 + d) :: p.fst, p.snd))
            | _, _, _, _ => none
          | _ => none
        else none
    else (parseStringBody fuel cs).map (fun p => (c :: p.fst, p.snd))

/-- Decimal value of a digit run. -/
def digitsVal (ds : List Char) : Nat :=
  ds.foldl (fun acc c => acc * 10 + (c.toNat - 48)) 0

/-- Parse a JSON integer token (fractional and exponent forms are outside
the modelled fragment and rejected). -/
def parseIntToken (l : List Char) : Option (Json × List Char) :=
  let neg := match l with | c :: _ => c == '-' | [] => false
  let l2 := if neg then l.drop 1 else l
  let ds := l2.takeWhile Char.isDigit
  let rest := l2.drop ds.length
  let isFloat := match rest with
    | c :: _ => c = '.' || c = 'e' || c = 'E'
    | [] => false
  if ds.isEmpty then none
  else if isFloat then none
  else some (.num (if neg then -(digitsVal ds : Int) else (digitsVal ds : Int)), rest)

/-- Parse the members of a JSON object (after the opening brace and any
leading whitespace, first member pending); `pv` parses one value. -/
def parseObjMembers (pv : List Char → Option (Json × List Char)) :
    Nat → List Char → List (List Char × Json) → Option (Json × List Char)
  | 0, _, _ => none
  | fuel + 1, l, acc =>
    match l with
    | [] => none
    | c :: cs =>
      if c = dquote then
        match parseStringBody (cs.length + 1) cs with
        | some (key, r1) =>
          match skipWs r1 with
          | [] => none
          | c2 :: r2 =>
            if c2 = ':' then
              match pv r2 with
              | some (v, r3) =>
                match skipWs r3 with
                | [] => none
                | c3 :: r4 =>
                  if c3 = ',' then parseObjMembers pv fuel (skipWs r4) (acc ++ [(key, v)])
                  else if c3 = rbrace then some (.obj (acc ++ [(key, v)]), r4)
                  else none
              | none => none
            else none
        | none => none
      else none

/-- Parse the elements of a JSON array (after the opening bracket, first
element pending); `pv` parses one value. -/
def parseArrElems (pv : List Char → Option (Json × List Char)) :
    Nat → List Char → List Json → Option (Json × List Char)
  | 0, _, _ => none
  | fuel + 1, l, acc =>
    match pv l with
    | some (v, r) =>
      match skipWs r with
      | [] => none
      | c :: r2 =>
        if c = ',' then parseArrElems pv fuel r2 (acc ++ [v])
        else if c = ']' then some (.arr (acc ++ [v]), r2)
        else none
    | none => none

/-- Parse one JSON value, returning it and the remaining input. -/
def parseValue : Nat → List Char → Option (Json × List Char)
  | 0, _ => none
  | fuel + 1, l =>
    match skipWs l with
    | [] => none
    | c :: cs =>
      if c = lbrace then
        match skipWs cs with
        | [] => none
        | c2 :: cs2 =>
          if c2 = rbrace then some (.obj [], cs2)
          else parseObjMembers (parseValue fuel) (fuel + 1) (c2 :: cs2) []
      else if c = '[' then
        match skipWs cs with
        | [] => none
        | c2 :: cs2 =>
          if c2 = ']' then some (.arr [], cs2)
          else parseArrElems (parseValue fuel) (fuel + 1) (c2 :: cs2) []
      else if c = dquote then
        match parseStringBody (cs.length + 1) cs with
        | some p => some (.str p.fst, p.snd)
        | none => none
      else if c = 't' then
        match cs with
        | 'r' :: 'u' :: 'e' :: r => some (.bool true, r)
        | _ => none
      else if c = 'f' then
        match cs with
        | 'a' :: 'l' :: 's' :: 'e' :: r => some (.bool false, r)
        | _ => none
      else if c = 'n' then
        match cs with
        | 'u' :: 'l' :: 'l' :: r => some (.null, r)
        | _ => none
      else parseIntToken (c :: cs)

/-- `json.loads`: parse a complete JSON document (trailing whitespace
allowed, trailing garbage rejected). -/
def jsonLoads (l : List Char) : Option Json :=
  match parseValue (l.length + 1) l with
  | some p => if (skipWs p.snd).isEmpty then some p.fst else none
  | none => none

/-- The outcome of `_parse_json_response`: a parsed object, or the
error dictionary built from the caught `JSONDecodeError`, carrying the
offending response text. -/
inductive ParseOutcome
  | ok (j : Json)
  | parseError (offending : List Char)

/-- `BaseAgent._parse_json_response`: slice from the first brace to the
last brace (Python `find`/`rfind`/slice semantics, including the `-1`
fallbacks when a brace is absent) and parse; a parse failure is caught
and becomes the error value. -/
def parse_json_response (response : List Char) : ParseOutcome :=
  let start_idx := pyFind lbrace response
  let end_idx := pyRFind rbrace response + 1
  let json_str := pySlice response start_idx end_idx
  match jsonLoads json_str with
  | some j => .ok j
  | none => .parseError response

/-- `findIdxFrom` fails exactly on absent characters. -/
theorem findIdxFrom_eq_none {c : Char} {l : List Char} (h : c ∉ l) :
    findIdxFrom c l = none := by
  induction l with
  | nil => rfl
  | cons x xs ih =>
    simp only [findIdxFrom]
    rw [if_neg (fun hx => h (by rw [hx]; exact List.mem_cons_self c xs)),
      ih (fun hm => h (List.mem_cons_of_mem x hm))]
    rfl

/-- A found index is within the list. -/
theorem findIdxFrom_some_lt {c : Char} {l : List Char} {i : Nat}
    (h : findIdxFrom c l = some i) : i < l.length := by
  induction l generalizing i with
  | nil => simp [findIdxFrom] at h
  | cons x xs ih =>
    simp only [findIdxFrom] at h
    by_cases hx : x = c
    · rw [if_pos hx] at h
      cases h
      simp
    · rw [if_neg hx] at h
      cases hj : findIdxFrom c xs with
      | none => rw [hj] at h; simp at h
      | some j =>
        rw [hj] at h
        simp at h
        have := ih hj
        simp only [List.length_cons]
        omega

/-- Index 0 means the list starts with the character. -/
theorem findIdxFrom_zero_head {c : Char} {l : List Char}
    (h : findIdxFrom c l = some 0) : ∃ xs, l = c :: xs := by
  cases l with
  | nil => simp [findIdxFrom] at h
  | cons x xs =>
    simp only [findIdxFrom] at h
    by_cases hx : x = c
    · exact ⟨xs, by rw [hx]⟩
    · rw [if_neg hx] at h
      cases hj : findIdxFrom c xs <;> rw [hj] at h <;> simp at h

/-- The Python bound of `-1` is the last index. -/
theorem pyBound_neg_one (len : Nat) : pyBound len (-1) = len - 1 := rfl

/-- The Python bound of a natural number is itself clamped at the length. -/
theorem pyBound_natCast (len x : Nat) : pyBound len ((x : Nat) : Int) = min x len := by
  unfold pyBound
  rw [if_neg (by omega)]
  omega

/-- The empty document is not valid JSON. -/
theorem jsonLoads_nil : jsonLoads ([] : List Char) = none := rfl

/-- A lone closing brace is not valid JSON. -/
theorem jsonLoads_rbrace : jsonLoads [rbrace] = none := rfl

/-- A slice with stop bound 0 is empty, hence fails to parse. -/
theorem jsonLoads_slice_stop_zero (r : List Char) (start : Int) :
    jsonLoads (pySlice r start 0) = none := by
  unfold pySlice
  have h0 : pyBound r.length 0 = 0 := by
    unfold pyBound
    rw [if_neg (by omega)]
    simp
  rw [h0, List.take_zero, List.drop_nil]
  exact jsonLoads_nil

/-- When either brace is absent, the extracted slice never parses: the
Python `-1` fallbacks leave an empty slice or the single closing brace. -/
theorem slice_no_brace_loads_none {r : List Char}
    (h : lbrace ∉ r ∨ rbrace ∉ r) :
    jsonLoads (pySlice r (pyFind lbrace r) (pyRFind rbrace r + 1)) = none := by
  rcases h with h | h
  · have hlf : pyFind lbrace r = -1 := by
      unfold pyFind
      rw [findIdxFrom_eq_none h]
    rw [hlf]
    cases hr : findIdxFrom rbrace r.reverse with
    | none =>
      have hrf : pyRFind rbrace r = -1 := by
        unfold pyRFind
        rw [hr]
      rw [hrf]
      norm_num
      exact jsonLoads_slice_stop_zero r (-1)
    | some i =>
      have hrf : pyRFind rbrace r = ((r.length - 1 - i : Nat) : Int) := by
        unfold pyRFind
        rw [hr]
      have hlt : i < r.length := by
        have := findIdxFrom_some_lt hr
        simpa using this
      rw [hrf]
      cases i with
      | zero =>
        obtain ⟨xs, hxs⟩ := findIdxFrom_zero_head hr
        have hrr : r = xs.reverse ++ [rbrace] := by
          have h2 := congrArg List.reverse hxs
          simpa using h2
        have hlen : r.length = xs.length + 1 := by
          rw [hrr]
          simp
        have hstop : ((r.length - 1 - 0 : Nat) : Int) + 1 = ((xs.length + 1 : Nat) : Int) := by
          omega
        rw [hstop]
        unfold pySlice
        rw [pyBound_natCast, pyBound_neg_one, hlen, Nat.min_self]
        have htake : r.take (xs.length + 1) = r := by
          conv_lhs => rw [hrr]
          rw [← hlen, ← hrr]
          exact List.take_length r
        rw [htake, hrr]
        have hd : (xs.reverse ++ [rbrace]).drop (xs.length + 1 - 1) = [rbrace] := by
          have : xs.length + 1 - 1 = xs.reverse.length := by simp
          rw [this]
          exact List.drop_left xs.reverse [rbrace]
        rw [hd]
        exact jsonLoads_rbrace
      | succ j =>
        have hstop : ((r.length - 1 - (j + 1) : Nat) : Int) + 1
            = ((r.length - 1 - j : Nat) : Int) := by omega
        rw [hstop]
        unfold pySlice
        rw [pyBound_natCast, pyBound_neg_one]
        have hmin : min (r.length - 1 - j) r.length = r.length - 1 - j := by omega
        rw [hmin]
        have hnil : (r.take (r.length - 1 - j)).drop (r.length - 1) = [] := by
          refine List.drop_eq_nil_of_le ?_
          rw [List.length_take]
          omega
        rw [hnil]
        exact jsonLoads_nil
  · have hr : findIdxFrom rbrace r.reverse = none :=
      findIdxFrom_eq_none (by simpa using h)
    have hrf : pyRFind rbrace r = -1 := by
      unfold pyRFind
      rw [hr]
    rw [hrf]
    norm_num
    exact jsonLoads_slice_stop_zero r _

/-- The spec's wrapped-JSON fixture. -/
def llmExampleText : List Char := "Here is the result: \x7b\"a\":1\x7d thanks".data

/-- Claim C7: the parser slices from the first opening brace to the last
closing brace and parses the slice as JSON, so a payload wrapped in a
preamble and epilogue yields the embedded object; when no brace pair
exists, or the slice is not valid JSON, the `JSONDecodeError` is caught
and an error value carrying the offending text is returned — the
function is total and never propagates the exception. -/
theorem parse_json_response_contract :
    parse_json_response llmExampleText = .ok (Json.obj [("a".data, Json.num 1)])
    ∧ parse_json_response "no json here".data = .parseError "no json here".data
    ∧ (∀ r : List Char, lbrace ∉ r ∨ rbrace ∉ r →
        parse_json_response r = .parseError r)
    ∧ (∀ r : List Char,
        jsonLoads (pySlice r (pyFind lbrace r) (pyRFind rbrace r + 1)) = none →
        parse_json_response r = .parseError r) := by
  refine ⟨rfl, rfl, fun r h => ?_, fun r h => ?_⟩
  · simp only [parse_json_response]
    rw [slice_no_brace_loads_none h]
  · simp only [parse_json_response]
    rw [h]

/-- Witness for C7 at concrete inputs: a braceless text and a text whose
brace-to-brace slice is not valid JSON. -/
theorem parse_json_response_contract_witness :
    (lbrace ∉ "abc".data ∨ rbrace ∉ "abc".data)
    ∧ parse_json_response "abc".data = .parseError "abc".data
    ∧ jsonLoads (pySlice "\x7b y \x7d".data (pyFind lbrace "\x7b y \x7d".data)
        (pyRFind rbrace "\x7b y \x7d".data + 1)) = none
    ∧ parse_json_response "\x7b y \x7d".data = .parseError "\x7b y \x7d".data :=
  ⟨Or.inl (by decide),
   parse_json_response_contract.2.2.1 "abc".data (Or.inl (by decide)),
   rfl,
   parse_json_response_contract.2.2.2 "\x7b y \x7d".data rfl⟩

end PMDash
